import Mathlib

/-!
Shallow embedding of the input-abstraction core of `engine-rs`
(`src/inputs/mod.rs`), for checking the claims of the specification.

Conventions of the embedding:
* SDL scancodes, gamepad buttons and gamepad axes are opaque identifiers;
  we represent each by `Nat`.
* The generic input-scheme identifier type `T` is kept as a type parameter
  with decidable equality (as `Hash + Eq + Copy` demands).
* Rust `HashMap`s are modelled as association lists with at most the
  usual functional lookup semantics; the per-frame event map built by
  `collect()` keeps the *last* value inserted for a key, exactly as
  the Rust `HashMap: FromIterator` instance does, which we model by a fold that
  overwrites earlier bindings.
* `f64` axis values are modelled by `Rat`.  Every value the keyboard-axis
  path can produce lies in {-1, 0, 1} and every normalisation divisor is
  an integer, so rational arithmetic is exact on everything the claims
  touch.
* The SDL `EventPump` is external input; `process_events` therefore takes
  the event list of the frame as an explicit argument, in delivery order.
-/

namespace Engine

/-- SDL scancode identifier (`sdl2::keyboard::Scancode`). -/
abbrev Scancode := Nat

/-- SDL gamepad button identifier (`sdl2::controller::Button`). -/
abbrev GamepadButton := Nat

/-- SDL gamepad axis identifier (`sdl2::controller::Axis`). -/
abbrev GamepadAxis := Nat

/-- `ButtonControl` from `src/inputs/mod.rs`. -/
inductive ButtonControl where
  | keyboard (scancode : Scancode)
  | gamepad (button : GamepadButton)
deriving DecidableEq, Repr

/-- `AxisControl` from `src/inputs/mod.rs`: a keyboard pair `(min, max)`
or a hardware gamepad axis. -/
inductive AxisControl where
  | keyboard (neg : Scancode) (pos : Scancode)
  | gamepad (axis : GamepadAxis)
deriving DecidableEq, Repr

/-- `Control` from `src/inputs/mod.rs`. -/
inductive Control where
  | button (b : ButtonControl)
  | axis (a : AxisControl)
deriving DecidableEq, Repr

/-- `ButtonState` from `src/inputs/mod.rs`. -/
inductive ButtonState where
  | down
  | up
deriving DecidableEq, Repr

/-- The SDL events the pipeline can observe (`sdl2::event::Event`),
restricted to the variants `process_events` matches on; every other
variant is collapsed into `other`.  The scancode of a key event is an
`Option` in SDL, faithfully kept here. -/
inductive Event where
  | keyDown (scancode : Option Scancode)
  | keyUp (scancode : Option Scancode)
  | controllerAxisMotion (axis : GamepadAxis) (value : Int)
  | controllerButtonDown (button : GamepadButton)
  | controllerButtonUp (button : GamepadButton)
  | other
deriving DecidableEq, Repr

/-- `ButtonInputData` from `src/inputs/mod.rs`. -/
structure ButtonInputData where
  value : ButtonState
  changed_this_frame : Bool
  controls : List ButtonControl
deriving DecidableEq, Repr

/-- `AxisInputData` from `src/inputs/mod.rs` (`value: f64` modelled
by `Rat`). -/
structure AxisInputData where
  value : Rat
  controls : List AxisControl
deriving DecidableEq, Repr

/-- `Input` from `src/inputs/mod.rs`. -/
inductive Input where
  | button (b : ButtonInputData)
  | axis (a : AxisInputData)
deriving DecidableEq, Repr

/-- `InputRegistrationError` from `src/inputs/mod.rs`. -/
inductive InputRegistrationError (T : Type) where
  | controlBusy (owner : T)
deriving DecidableEq, Repr

/-- `InputsPipeline` state: the `Control -> identifier` registry
(`controls_input`) and the `identifier -> Input` store (`inputs`),
both hash maps modelled as association lists. -/
structure InputsPipeline (T : Type) where
  controls_input : List (Control × T)
  inputs : List (T × Input)
deriving DecidableEq, Repr

variable {T : Type} [DecidableEq T]

/-- Functional lookup in the `controls_input` hash map. -/
def lookupControl (r : List (Control × T)) (c : Control) : Option T :=
  (r.find? (fun p => p.1 = c)).map Prod.snd

/-- Functional lookup in the `inputs` hash map. -/
def lookupInput (r : List (T × Input)) (k : T) : Option Input :=
  (r.find? (fun p => p.1 = k)).map Prod.snd

/-- `InputsPipeline::new`: both maps start empty. -/
def InputsPipeline.new : InputsPipeline T := ⟨[], []⟩

/-- The conflict scan of `InputsPipeline::register`: walk `controls` in
order and return the owner of the first control already present in
`controls_input` (lines 104-108 of `src/inputs/mod.rs`). -/
def findBusy (r : List (Control × T)) : List Control → Option T
  | [] => none
  | c :: rest =>
    match lookupControl r c with
    | some i => some i
    | none => findBusy r rest

/-- `InputsPipeline::register` (lines 98-111 of `src/inputs/mod.rs`).
Returned as (state after the call, result).  Faithful to the source:
after the conflict scan succeeds it returns `Ok(())` WITHOUT inserting
anything into `controls_input` or `inputs` — `input_id` and `input` are
never used. -/
def register (p : InputsPipeline T) (input_id : T) (input : Input)
    (controls : List Control) :
    InputsPipeline T × Except (InputRegistrationError T) Unit :=
  match findBusy p.controls_input controls with
  | some i => (p, Except.error (InputRegistrationError.controlBusy i))
  | none => (p, Except.ok ())

/-- `InputsPipeline::read` (lines 113-115). -/
def read (p : InputsPipeline T) (key : T) : Option Input :=
  lookupInput p.inputs key

/-- The key under which the `filter_map` closure of `process_events` files an
event into the per-frame map (lines 121-129): `KeyDown`/`KeyUp` with a
present scancode map to the keyboard button control; an absent scancode
makes the closure return `None` via `?`; every other event variant is
dropped by the `_ => None` arm. -/
def eventKey : Event → Option Control
  | Event.keyDown sc => sc.map (fun s => Control.button (ButtonControl.keyboard s))
  | Event.keyUp sc => sc.map (fun s => Control.button (ButtonControl.keyboard s))
  | _ => none

/-- The `(Control, Event)` pairs surviving the `filter_map`, in delivery
order. -/
def collectEvents (events : List Event) : List (Control × Event) :=
  events.filterMap (fun e => (eventKey e).map (fun c => (c, e)))

/-- The per-frame `HashMap<Control, Event>` built by `collect()`
(lines 118-130): for each control, the LAST event filed under it wins,
as in the Rust `HashMap: FromIterator` instance. -/
def frameMap (events : List Event) (c : Control) : Option Event :=
  (collectEvents events).foldl (fun acc p => if p.1 = c then some p.2 else acc) none

/-- One iteration of the axis loop (lines 135-170): how one bound
`AxisControl` updates the running `value`.  The gamepad arm looks up
`Control::Axis(control)` and, when an event is present, overwrites the
value with `raw / i16::MAX` (or `0.` for a non-axis-motion event);
absent an event it leaves the value alone.  The keyboard arm rebuilds
`v` from 0 out of the `KeyDown` events of this frame for the two scancodes
and unconditionally stores it. -/
def stepAxisValue (m : Control → Option Event) (v : Rat) : AxisControl → Rat
  | AxisControl.gamepad g =>
    match m (Control.axis (AxisControl.gamepad g)) with
    | some e =>
      match e with
      | Event.controllerAxisMotion _ raw => (raw : Rat) / 32767
      | _ => 0
    | none => v
  | AxisControl.keyboard neg pos =>
    let v0 : Rat := 0
    let v1 :=
      match m (Control.button (ButtonControl.keyboard neg)) with
      | some e => match e with | Event.keyDown _ => v0 - 1 | _ => v0
      | none => v0
    let v2 :=
      match m (Control.button (ButtonControl.keyboard pos)) with
      | some e => match e with | Event.keyDown _ => v1 + 1 | _ => v1
      | none => v1
    v2

/-- One iteration of the button loop (lines 173-212): how one bound
`ButtonControl` updates the running `(value, changed_this_frame)` pair.
Both arms only act when the frame map holds an event for
`Control::Button(control)`; with no event the pair is left alone
(in particular `changed_this_frame` is NOT reset). -/
def stepButton (m : Control → Option Event) (s : ButtonState × Bool) :
    ButtonControl → ButtonState × Bool
  | ButtonControl.gamepad g =>
    match m (Control.button (ButtonControl.gamepad g)) with
    | some e =>
      match e with
      | Event.controllerButtonDown _ => (ButtonState.down, decide (s.1 ≠ ButtonState.down))
      | Event.controllerButtonUp _ => (ButtonState.up, decide (s.1 ≠ ButtonState.up))
      | _ => (ButtonState.up, false)
    | none => s
  | ButtonControl.keyboard k =>
    match m (Control.button (ButtonControl.keyboard k)) with
    | some e =>
      match e with
      | Event.keyDown _ => (ButtonState.down, decide (s.1 ≠ ButtonState.down))
      | Event.keyUp _ => (ButtonState.up, decide (s.1 ≠ ButtonState.up))
      | _ => (ButtonState.up, false)
    | none => s

/-- The body of the `values_mut` loop for one `Input` (lines 132-214):
fold the per-control step over the bound controls of the input. -/
def processInput (m : Control → Option Event) : Input → Input
  | Input.axis a =>
    Input.axis { a with value := a.controls.foldl (stepAxisValue m) a.value }
  | Input.button b =>
    let s := b.controls.foldl (stepButton m) (b.value, b.changed_this_frame)
    Input.button { b with value := s.1, changed_this_frame := s.2 }

/-- `InputsPipeline::process_events` (lines 117-216), with the
event list of the frame (in delivery order) made explicit. -/
def process_events (p : InputsPipeline T) (events : List Event) :
    InputsPipeline T :=
  { p with inputs := p.inputs.map (fun kv => (kv.1, processInput (frameMap events) kv.2)) }

/-- The controls at which processing one bound `AxisControl` consults the
per-frame event map. -/
def consultedAxis : AxisControl → List Control
  | AxisControl.gamepad g => [Control.axis (AxisControl.gamepad g)]
  | AxisControl.keyboard neg pos =>
    [Control.button (ButtonControl.keyboard neg), Control.button (ButtonControl.keyboard pos)]

/-- The controls at which processing an `Input` consults the per-frame
event map (each bound button control is looked up at
`Control::Button(control)`, in both its arms). -/
def consultedControls : Input → List Control
  | Input.button b => b.controls.map Control.button
  | Input.axis a => a.controls.flatMap consultedAxis

/-- Whether a bound button control is a gamepad control. -/
def ButtonControl.isGamepad : ButtonControl → Bool
  | ButtonControl.gamepad _ => true
  | ButtonControl.keyboard _ => false

/-- Whether a bound axis control is a hardware gamepad axis. -/
def AxisControl.isGamepad : AxisControl → Bool
  | AxisControl.gamepad _ => true
  | AxisControl.keyboard _ _ => false

/-- Whether every control bound to an input is a gamepad control. -/
def gamepadOnly : Input → Bool
  | Input.button b => b.controls.all ButtonControl.isGamepad
  | Input.axis a => a.controls.all AxisControl.isGamepad

/-- Whether an optional event is a `KeyDown` event. -/
def isKeyDownEvent : Option Event → Bool
  | some (Event.keyDown _) => true
  | _ => false

/-- The value the composed keyboard-axis arm produces for a frame, stated
the way the specification phrases it: +1 if the map holds a `KeyDown`
event for the positive scancode, plus -1 if it holds a `KeyDown` event
for the negative scancode. -/
def keyAxisValue (m : Control → Option Event) (neg pos : Scancode) : Rat :=
  (if isKeyDownEvent (m (Control.button (ButtonControl.keyboard neg))) then -1 else 0) +
  (if isKeyDownEvent (m (Control.button (ButtonControl.keyboard pos))) then 1 else 0)

/-- Button scenario, tick 0: one button input under identifier 0, bound
to keyboard scancode 5, initially `Up` / unchanged. -/
def btnP0 : InputsPipeline Nat :=
  ⟨[], [(0, Input.button ⟨ButtonState.up, false, [ButtonControl.keyboard 5]⟩)]⟩

/-- Button scenario after tick 1, events `[KeyDown 5]`. -/
def btnP1 : InputsPipeline Nat := process_events btnP0 [Event.keyDown (some 5)]

/-- Button scenario after tick 2, no events. -/
def btnP2 : InputsPipeline Nat := process_events btnP1 []

/-- Button scenario after tick 3, events `[KeyUp 5]`. -/
def btnP3 : InputsPipeline Nat := process_events btnP2 [Event.keyUp (some 5)]

/-- Axis scenario, tick 0: one composed keyboard axis under identifier 0,
bound to the scancode pair (neg = 4, pos = 7), initially 0. -/
def axP0 : InputsPipeline Nat :=
  ⟨[], [(0, Input.axis ⟨0, [AxisControl.keyboard 4 7]⟩)]⟩

/-- Axis scenario after tick 1, events `[KeyDown 7]` (positive key pressed
and held from now on). -/
def axP1 : InputsPipeline Nat := process_events axP0 [Event.keyDown (some 7)]

/-- Axis scenario after tick 2, no events (the key is still held; SDL
reports no new transition). -/
def axP2 : InputsPipeline Nat := process_events axP1 []

/-- Gamepad-axis scenario: one axis input under identifier 0 bound to
hardware gamepad axis 2, value 0. -/
def gpP0 : InputsPipeline Nat :=
  ⟨[], [(0, Input.axis ⟨0, [AxisControl.gamepad 2]⟩)]⟩

/-- Gamepad-button scenario: one button input under identifier 0 bound to
hardware gamepad button 3. -/
def gpBtnP0 : InputsPipeline Nat :=
  ⟨[], [(0, Input.button ⟨ButtonState.up, false, [ButtonControl.gamepad 3]⟩)]⟩

/-- A concrete button input definition used in the registration
scenarios. -/
def regBtnInput : Input :=
  Input.button ⟨ButtonState.up, false, [ButtonControl.keyboard 5]⟩

/-- A concrete control used in the registration scenarios. -/
def regControl : Control := Control.button (ButtonControl.keyboard 5)

/-- A registry state in which keyboard control 3 is owned by
identifier 0. -/
def busyState : InputsPipeline Nat :=
  ⟨[(Control.button (ButtonControl.keyboard 3), 0)], []⟩

/-- A registry state in which keyboard control 3 is owned by
identifier 1 (playing the role of B in the conflict scenario). -/
def busyB : InputsPipeline Nat :=
  ⟨[(Control.button (ButtonControl.keyboard 3), 1)], []⟩

/-- Free control c1 of the conflict scenario. -/
def c1ex : Control := Control.button (ButtonControl.keyboard 2)

/-- Control c2 of the conflict scenario, the one owned by B in
`busyB`. -/
def c2ex : Control := Control.button (ButtonControl.keyboard 3)

end Engine

deriving instance DecidableEq for Except

namespace Engine

variable {T : Type} [DecidableEq T]

lemma collectEvents_append (es1 es2 : List Event) :
    collectEvents (es1 ++ es2) = collectEvents es1 ++ collectEvents es2 :=
  List.filterMap_append ..

lemma mem_collectEvents_key (es : List Event) (pr : Control × Event)
    (hp : pr ∈ collectEvents es) :
    ∃ s : Scancode, pr.1 = Control.button (ButtonControl.keyboard s) := by
  rw [collectEvents, List.mem_filterMap] at hp
  obtain ⟨e, -, he⟩ := hp
  cases e with
  | keyDown sc =>
    cases sc with
    | none => simp [eventKey] at he
    | some s => simp [eventKey] at he; exact ⟨s, by rw [← he]⟩
  | keyUp sc =>
    cases sc with
    | none => simp [eventKey] at he
    | some s => simp [eventKey] at he; exact ⟨s, by rw [← he]⟩
  | controllerAxisMotion a v => simp [eventKey] at he
  | controllerButtonDown b => simp [eventKey] at he
  | controllerButtonUp b => simp [eventKey] at he
  | other => simp [eventKey] at he

lemma foldl_lastWins_skip (c : Control) (l : List (Control × Event))
    (h : ∀ pr ∈ l, pr.1 ≠ c) (acc : Option Event) :
    l.foldl (fun acc p => if p.1 = c then some p.2 else acc) acc = acc := by
  induction l generalizing acc with
  | nil => rfl
  | cons pr rest ih =>
    have h1 : pr.1 ≠ c := h pr (List.mem_cons_self ..)
    simp only [List.foldl_cons, if_neg h1]
    exact ih (fun q hq => h q (List.mem_cons_of_mem _ hq)) acc

lemma frameMap_non_keyboard (events : List Event) (c : Control)
    (h : ∀ s : Scancode, c ≠ Control.button (ButtonControl.keyboard s)) :
    frameMap events c = none := by
  refine foldl_lastWins_skip c _ (fun pr hp => ?_) none
  obtain ⟨s, hs⟩ := mem_collectEvents_key events pr hp
  rw [hs]
  exact fun hc => h s hc.symm

lemma frameMap_append_last (es : List Event) (e : Event) (c : Control)
    (h : eventKey e = some c) :
    frameMap (es ++ [e]) c = some e := by
  have hc : collectEvents [e] = [(c, e)] := by simp [collectEvents, h]
  rw [frameMap, collectEvents_append, hc, List.foldl_append]
  simp

lemma frameMap_middle (es1 es2 : List Event) (e : Event) (c : Control)
    (h : eventKey e = some c) (c' : Control) (hne : c' ≠ c) :
    frameMap (es1 ++ e :: es2) c' = frameMap (es1 ++ es2) c' := by
  have hc : collectEvents [e] = [(c, e)] := by simp [collectEvents, h]
  have h1 : es1 ++ e :: es2 = es1 ++ [e] ++ es2 := by simp
  rw [frameMap, frameMap, h1, collectEvents_append, collectEvents_append, hc,
    collectEvents_append, List.foldl_append, List.foldl_append, List.foldl_append]
  simp only [List.foldl_cons, List.foldl_nil]
  rw [if_neg (show ¬((c, e).1 = c') from fun hcc => hne (by simpa using hcc.symm))]

lemma frameMap_dropped (es1 es2 : List Event) (e : Event)
    (h : eventKey e = none) (c' : Control) :
    frameMap (es1 ++ e :: es2) c' = frameMap (es1 ++ es2) c' := by
  have hc : collectEvents [e] = [] := by simp [collectEvents, h]
  have h1 : es1 ++ e :: es2 = es1 ++ [e] ++ es2 := by simp
  rw [frameMap, frameMap, h1, collectEvents_append, collectEvents_append, hc,
    collectEvents_append]
  simp

lemma stepButton_congr (m m' : Control → Option Event) (s : ButtonState × Bool)
    (bc : ButtonControl) (h : m (Control.button bc) = m' (Control.button bc)) :
    stepButton m s bc = stepButton m' s bc := by
  cases bc <;> simp only [stepButton] <;> rw [h]

lemma foldl_stepButton_congr (m m' : Control → Option Event)
    (cs : List ButtonControl)
    (h : ∀ bc ∈ cs, m (Control.button bc) = m' (Control.button bc))
    (s : ButtonState × Bool) :
    cs.foldl (stepButton m) s = cs.foldl (stepButton m') s := by
  induction cs generalizing s with
  | nil => rfl
  | cons bc rest ih =>
    simp only [List.foldl_cons]
    rw [stepButton_congr m m' s bc (h bc (List.mem_cons_self ..))]
    exact ih (fun q hq => h q (List.mem_cons_of_mem _ hq)) _

lemma stepAxisValue_congr (m m' : Control → Option Event) (v : Rat)
    (ac : AxisControl) (h : ∀ c ∈ consultedAxis ac, m c = m' c) :
    stepAxisValue m v ac = stepAxisValue m' v ac := by
  cases ac with
  | gamepad g =>
    have h1 := h (Control.axis (AxisControl.gamepad g)) (by simp [consultedAxis])
    simp only [stepAxisValue]
    rw [h1]
  | keyboard neg pos =>
    have h1 := h (Control.button (ButtonControl.keyboard neg)) (by simp [consultedAxis])
    have h2 := h (Control.button (ButtonControl.keyboard pos)) (by simp [consultedAxis])
    simp only [stepAxisValue]
    rw [h1, h2]

lemma foldl_stepAxisValue_congr (m m' : Control → Option Event)
    (cs : List AxisControl)
    (h : ∀ ac ∈ cs, ∀ c ∈ consultedAxis ac, m c = m' c) (v : Rat) :
    cs.foldl (stepAxisValue m) v = cs.foldl (stepAxisValue m') v := by
  induction cs generalizing v with
  | nil => rfl
  | cons ac rest ih =>
    simp only [List.foldl_cons]
    rw [stepAxisValue_congr m m' v ac (h ac (List.mem_cons_self ..))]
    exact ih (fun q hq => h q (List.mem_cons_of_mem _ hq)) _

lemma processInput_congr (m m' : Control → Option Event) (i : Input)
    (h : ∀ c ∈ consultedControls i, m c = m' c) :
    processInput m i = processInput m' i := by
  cases i with
  | button b =>
    simp only [processInput]
    rw [foldl_stepButton_congr m m' b.controls
      (fun bc hbc => h (Control.button bc)
        (show _ ∈ b.controls.map Control.button from List.mem_map_of_mem _ hbc))]
  | axis a =>
    simp only [processInput]
    rw [foldl_stepAxisValue_congr m m' a.controls
      (fun ac hac c hc => h c
        (show _ ∈ a.controls.flatMap consultedAxis from List.mem_flatMap.mpr ⟨ac, hac, hc⟩))]

lemma process_events_congr (p : InputsPipeline T) (evs evs' : List Event)
    (h : ∀ kv ∈ p.inputs, ∀ c ∈ consultedControls kv.2,
      frameMap evs c = frameMap evs' c) :
    process_events p evs = process_events p evs' := by
  simp only [process_events, InputsPipeline.mk.injEq]
  refine ⟨trivial, ?_⟩
  · exact List.map_congr_left (fun kv hkv => by
      rw [processInput_congr _ _ kv.2 (h kv hkv)])

lemma findBusy_eq_none_iff (r : List (Control × T)) (cs : List Control) :
    findBusy r cs = none ↔ ∀ c ∈ cs, lookupControl r c = none := by
  induction cs with
  | nil => simp [findBusy]
  | cons c rest ih =>
    cases h : lookupControl r c with
    | some i => simp [findBusy, h]
    | none => simp [findBusy, h, ih]

lemma findBusy_eq_some (r : List (Control × T)) (cs : List Control) (o : T)
    (h : findBusy r cs = some o) : ∃ c ∈ cs, lookupControl r c = some o := by
  induction cs with
  | nil => simp [findBusy] at h
  | cons c rest ih =>
    rw [findBusy] at h
    cases hl : lookupControl r c with
    | some i =>
      rw [hl] at h
      exact ⟨c, List.mem_cons_self .., by rw [hl]; simpa using h⟩
    | none =>
      rw [hl] at h
      obtain ⟨c', hc', ho⟩ := ih h
      exact ⟨c', List.mem_cons_of_mem _ hc', ho⟩

lemma stepAxisValue_keyboard (m : Control → Option Event) (v : Rat)
    (neg pos : Scancode) :
    stepAxisValue m v (AxisControl.keyboard neg pos) = keyAxisValue m neg pos := by
  simp only [stepAxisValue, keyAxisValue]
  rcases h1 : m (Control.button (ButtonControl.keyboard neg)) with _ | e1 <;>
    rcases h2 : m (Control.button (ButtonControl.keyboard pos)) with _ | e2
  · simp [isKeyDownEvent]
  · cases e2 <;> simp [isKeyDownEvent] <;> norm_num
  · cases e1 <;> simp [isKeyDownEvent] <;> norm_num
  · cases e1 <;> cases e2 <;> simp [isKeyDownEvent] <;> norm_num

lemma foldl_axis_last (m : Control → Option Event) (cs : List AxisControl)
    (neg pos : Scancode) (v : Rat) :
    (cs ++ [AxisControl.keyboard neg pos]).foldl (stepAxisValue m) v =
      keyAxisValue m neg pos := by
  rw [List.foldl_append]
  simp only [List.foldl_cons, List.foldl_nil]
  exact stepAxisValue_keyboard ..

lemma keyAxisValue_mem (m : Control → Option Event) (neg pos : Scancode) :
    keyAxisValue m neg pos = -1 ∨ keyAxisValue m neg pos = 0 ∨
      keyAxisValue m neg pos = 1 := by
  cases h1 : isKeyDownEvent (m (Control.button (ButtonControl.keyboard neg))) <;>
    cases h2 : isKeyDownEvent (m (Control.button (ButtonControl.keyboard pos))) <;>
    simp [keyAxisValue, h1, h2]

lemma stepButton_gamepad_id (events : List Event) (s : ButtonState × Bool)
    (g : GamepadButton) :
    stepButton (frameMap events) s (ButtonControl.gamepad g) = s := by
  simp only [stepButton]
  rw [frameMap_non_keyboard events _ (fun s' => by simp)]

lemma stepAxisValue_gamepad_id (events : List Event) (v : Rat)
    (g : GamepadAxis) :
    stepAxisValue (frameMap events) v (AxisControl.gamepad g) = v := by
  simp only [stepAxisValue]
  rw [frameMap_non_keyboard events _ (fun s' => by simp)]

lemma foldl_stepButton_gamepad (events : List Event) (cs : List ButtonControl)
    (h : ∀ bc ∈ cs, ButtonControl.isGamepad bc = true) (s : ButtonState × Bool) :
    cs.foldl (stepButton (frameMap events)) s = s := by
  induction cs generalizing s with
  | nil => rfl
  | cons bc rest ih =>
    have hbc := h bc (List.mem_cons_self ..)
    cases bc with
    | keyboard k => simp [ButtonControl.isGamepad] at hbc
    | gamepad g =>
      simp only [List.foldl_cons, stepButton_gamepad_id]
      exact ih (fun q hq => h q (List.mem_cons_of_mem _ hq)) s

lemma foldl_stepAxisValue_gamepad (events : List Event) (cs : List AxisControl)
    (h : ∀ ac ∈ cs, AxisControl.isGamepad ac = true) (v : Rat) :
    cs.foldl (stepAxisValue (frameMap events)) v = v := by
  induction cs generalizing v with
  | nil => rfl
  | cons ac rest ih =>
    have hac := h ac (List.mem_cons_self ..)
    cases ac with
    | keyboard neg pos => simp [AxisControl.isGamepad] at hac
    | gamepad g =>
      simp only [List.foldl_cons, stepAxisValue_gamepad_id]
      exact ih (fun q hq => h q (List.mem_cons_of_mem _ hq)) v

lemma processInput_gamepadOnly (events : List Event) (i : Input)
    (hg : gamepadOnly i = true) : processInput (frameMap events) i = i := by
  cases i with
  | button b =>
    simp only [gamepadOnly, List.all_eq_true] at hg
    simp only [processInput, foldl_stepButton_gamepad events b.controls hg]
  | axis a =>
    simp only [gamepadOnly, List.all_eq_true] at hg
    simp only [processInput, foldl_stepAxisValue_gamepad events a.controls hg]

/-- C1: the claim says a successful `register` makes every requested
Control owned by the identifier and stores the LogicalInput for `read`.
The code does neither: on a fresh pipeline, registering identifier 0 on
keyboard control 5 returns `Ok` and leaves the pipeline state COMPLETELY
unchanged, so a second registration of the SAME control under the
different identifier 1 also returns `Ok` (no ownership was recorded) and
`read 0` still returns `none` (no input was stored).  This evaluates the
code at the failing input of the claim. -/
theorem C1_register_commits_nothing :
    register (T := Nat) InputsPipeline.new 0 regBtnInput [regControl] =
      (InputsPipeline.new, Except.ok ()) ∧
    (register (T := Nat)
        (register (T := Nat) InputsPipeline.new 0 regBtnInput [regControl]).1 1
        regBtnInput [regControl]).2 = Except.ok () ∧
    read (register (T := Nat) InputsPipeline.new 0 regBtnInput [regControl]).1 0 =
      none := by
  decide

/-- C2 counterexample: the claim asserts that with no event in a frame a
button resets `changed_this_frame` to false, so in the three-tick
scenario tick 2 reads (Down, changed = false).  On the code, tick 2
reads (Down, changed = true): the no-event path leaves the input wholly
untouched, stale flag included. -/
theorem C2_cex_changed_flag_not_reset :
    read btnP2 0 ≠
      some (Input.button ⟨ButtonState.down, false, [ButtonControl.keyboard 5]⟩) := by
  decide

/-- C2 (amended): for a button bound to keyboard scancode k, a
`KeyDown`/`KeyUp` event in the frame map recomputes value as Down/Up with
`changed_this_frame = (new value differs from old)`; with NO matching
event the button retains its previous value AND its previous
`changed_this_frame` (the flag is not reset to false).  Hence the
three-tick scenario reads (Down, true), (Down, true), (Up, true). -/
theorem C2_button_event_edge_semantics (k : Scancode) (v : ButtonState) (ch : Bool)
    (events : List Event) :
    (processInput (frameMap events) (Input.button ⟨v, ch, [ButtonControl.keyboard k]⟩) =
      match frameMap events (Control.button (ButtonControl.keyboard k)) with
      | some (Event.keyDown _) =>
        Input.button
          ⟨ButtonState.down, decide (v ≠ ButtonState.down), [ButtonControl.keyboard k]⟩
      | some (Event.keyUp _) =>
        Input.button
          ⟨ButtonState.up, decide (v ≠ ButtonState.up), [ButtonControl.keyboard k]⟩
      | some _ => Input.button ⟨ButtonState.up, false, [ButtonControl.keyboard k]⟩
      | none => Input.button ⟨v, ch, [ButtonControl.keyboard k]⟩) ∧
    read btnP1 0 = some (Input.button ⟨ButtonState.down, true, [ButtonControl.keyboard 5]⟩) ∧
    read btnP2 0 = some (Input.button ⟨ButtonState.down, true, [ButtonControl.keyboard 5]⟩) ∧
    read btnP3 0 = some (Input.button ⟨ButtonState.up, true, [ButtonControl.keyboard 5]⟩) := by
  refine ⟨?_, by decide, by decide, by decide⟩
  simp only [processInput, List.foldl_cons, List.foldl_nil, stepButton]
  rcases h : frameMap events (Control.button (ButtonControl.keyboard k)) with _ | e
  · rfl
  · cases e <;> rfl

/-- C2 witness: the amended claim applied at a concrete input (a fresh
press on scancode 9 flips the button to Down with the change flag set;
the eventless tick 2 of the scenario keeps the stale flag). -/
theorem C2_button_event_edge_semantics_witness :
    processInput (frameMap [Event.keyDown (some 9)])
        (Input.button ⟨ButtonState.up, false, [ButtonControl.keyboard 9]⟩) =
      Input.button ⟨ButtonState.down, true, [ButtonControl.keyboard 9]⟩ ∧
    read btnP2 0 =
      some (Input.button ⟨ButtonState.down, true, [ButtonControl.keyboard 5]⟩) := by
  have h := C2_button_event_edge_semantics 9 ButtonState.up false [Event.keyDown (some 9)]
  exact ⟨by rw [h.1]; decide, h.2.2.1⟩

/-- C3 counterexample: the claim asserts an axis whose positive key was
pressed on tick 1 and never released still reads +1 on tick 2 even with
no event that tick.  On the code, tick 2 reads 0: the keyboard-axis arm
recomputes from this frame transition events only and there is no
persisted key state. -/
theorem C3_cex_axis_decays_without_events :
    read axP2 0 ≠ some (Input.axis ⟨1, [AxisControl.keyboard 4 7]⟩) := by
  have he4 : isKeyDownEvent (frameMap []
      (Control.button (ButtonControl.keyboard 4))) = false := rfl
  have he7 : isKeyDownEvent (frameMap []
      (Control.button (ButtonControl.keyboard 7))) = false := rfl
  norm_num [axP2, axP1, axP0, Engine.read, lookupInput, process_events, processInput,
    List.find?, stepAxisValue_keyboard, keyAxisValue, he4, he7]

/-- C3 (amended): after each frame, a composed keyboard axis bound to a
(negative, positive) scancode pair has value (+1 if a `KeyDown` event for
the positive scancode is in THIS frame event map) + (-1 if a `KeyDown`
event for the negative scancode is), computed from frame events alone,
with no persisted key state: a key pressed on tick 1 and held contributes
only on tick 1 — the value is 1 after tick 1 and silently returns to 0 on
the eventless tick 2. -/
theorem C3_axis_value_from_frame_events_only (neg pos : Scancode) (v : Rat)
    (events : List Event) :
    processInput (frameMap events) (Input.axis ⟨v, [AxisControl.keyboard neg pos]⟩) =
      Input.axis ⟨keyAxisValue (frameMap events) neg pos, [AxisControl.keyboard neg pos]⟩ ∧
    read axP1 0 = some (Input.axis ⟨1, [AxisControl.keyboard 4 7]⟩) ∧
    read axP2 0 = some (Input.axis ⟨0, [AxisControl.keyboard 4 7]⟩) := by
  have hb4 : isKeyDownEvent (frameMap [Event.keyDown (some 7)]
      (Control.button (ButtonControl.keyboard 4))) = false := rfl
  have hb7 : isKeyDownEvent (frameMap [Event.keyDown (some 7)]
      (Control.button (ButtonControl.keyboard 7))) = true := rfl
  have he4 : isKeyDownEvent (frameMap []
      (Control.button (ButtonControl.keyboard 4))) = false := rfl
  have he7 : isKeyDownEvent (frameMap []
      (Control.button (ButtonControl.keyboard 7))) = false := rfl
  refine ⟨?_, ?_, ?_⟩
  · simp only [processInput, List.foldl_cons, List.foldl_nil, stepAxisValue_keyboard]
  · norm_num [axP1, axP0, Engine.read, lookupInput, process_events, processInput,
      List.find?, stepAxisValue_keyboard, keyAxisValue, hb4, hb7]
  · norm_num [axP2, axP1, axP0, Engine.read, lookupInput, process_events, processInput,
      List.find?, stepAxisValue_keyboard, keyAxisValue, hb4, hb7, he4, he7]

/-- C3 witness: the amended claim applied at a concrete input (one
`KeyDown` for the positive scancode this frame). -/
theorem C3_axis_value_from_frame_events_only_witness :
    processInput (frameMap [Event.keyDown (some 7)])
        (Input.axis ⟨1, [AxisControl.keyboard 4 7]⟩) =
      Input.axis ⟨keyAxisValue (frameMap [Event.keyDown (some 7)]) 4 7,
        [AxisControl.keyboard 4 7]⟩ :=
  (C3_axis_value_from_frame_events_only 4 7 1 [Event.keyDown (some 7)]).1

/-- C4 counterexample: the claim states `register` errors IF AND ONLY IF
some requested Control is owned by a DIFFERENT identifier.  In the state
where keyboard control 3 is owned by identifier 0 itself, identifier 0
re-requesting that control should then succeed per the claim, but the
code returns an error (the conflict scan does not compare owners). -/
theorem C4_cex_same_identifier_conflict :
    (register busyState 0 regBtnInput [c2ex]).2 ≠ Except.ok () := by
  decide

/-- C4 (amended): `register` returns `Ok` iff NO requested Control is
owned by ANY identifier (the owner being the requester does not help);
an error always carries the owner of some conflicting requested Control;
the pipeline state is never mutated, so on error no partial reservation
exists — in the scenario where A requests {c1, c2} and c2 is owned by
B = 1, the call fails with `ControlBusy(1)` and the registry is exactly
as before. -/
theorem C4_register_validate_only (p : InputsPipeline Nat) (input_id : Nat)
    (input : Input) (cs : List Control) :
    (register p input_id input cs).1 = p ∧
    ((register p input_id input cs).2 = Except.ok () ↔
      ∀ c ∈ cs, lookupControl p.controls_input c = none) ∧
    (∀ o : Nat, (register p input_id input cs).2 =
        Except.error (InputRegistrationError.controlBusy o) →
      ∃ c ∈ cs, lookupControl p.controls_input c = some o) ∧
    (register busyB input_id input [c1ex, c2ex]).2 =
      Except.error (InputRegistrationError.controlBusy 1) ∧
    (register busyB input_id input [c1ex, c2ex]).1 = busyB := by
  have hsplit : (register p input_id input cs).1 = p ∧
      ((register p input_id input cs).2 = Except.ok () ↔
        findBusy p.controls_input cs = none) ∧
      (∀ o : Nat, (register p input_id input cs).2 =
          Except.error (InputRegistrationError.controlBusy o) →
        findBusy p.controls_input cs = some o) := by
    unfold register
    cases h : findBusy p.controls_input cs <;> simp
  obtain ⟨h1, h2, h3⟩ := hsplit
  refine ⟨h1, h2.trans (findBusy_eq_none_iff ..),
    fun o ho => findBusy_eq_some _ _ o (h3 o ho), ?_, ?_⟩
  · rfl
  · rfl

/-- C4 witness: the amended claim applied at the concrete conflict
scenario state. -/
theorem C4_register_validate_only_witness :
    (register busyB 0 regBtnInput [c1ex, c2ex]).2 =
      Except.error (InputRegistrationError.controlBusy 1) :=
  (C4_register_validate_only busyB 0 regBtnInput [c1ex, c2ex]).2.2.2.1

/-- C5: the claim says `read identifier` is `none` iff the identifier was
never successfully registered.  The right-to-left direction holds on a
fresh pipeline, but after a SUCCESSFUL registration of identifier 2 the
code still returns `none`, because `register` never stores the
LogicalInput.  This evaluates the code at the failing input of the
claim. -/
theorem C5_read_after_ok_registration_none :
    read (InputsPipeline.new (T := Nat)) 2 = none ∧
    (register (T := Nat) InputsPipeline.new 2 regBtnInput [regControl]).2 =
      Except.ok () ∧
    read (register (T := Nat) InputsPipeline.new 2 regBtnInput [regControl]).1 2 =
      none := by
  decide

/-- C6: within one frame the per-control reduction is last-event-wins in
delivery order: the per-frame map holds, for any control, the last event
of the frame filed under it; concretely a button receiving KeyDown(5)
then KeyUp(5) in one tick ends the tick Up (with the edge flag from the
transition), and in the reversed delivery order ends the tick Down. -/
theorem C6_last_event_wins (es : List Event) (e : Event) (c : Control)
    (h : eventKey e = some c) :
    frameMap (es ++ [e]) c = some e ∧
    processInput (frameMap [Event.keyDown (some 5), Event.keyUp (some 5)])
        (Input.button ⟨ButtonState.down, false, [ButtonControl.keyboard 5]⟩) =
      Input.button ⟨ButtonState.up, true, [ButtonControl.keyboard 5]⟩ ∧
    processInput (frameMap [Event.keyUp (some 5), Event.keyDown (some 5)])
        (Input.button ⟨ButtonState.down, false, [ButtonControl.keyboard 5]⟩) =
      Input.button ⟨ButtonState.down, false, [ButtonControl.keyboard 5]⟩ :=
  ⟨frameMap_append_last es e c h, by decide, by decide⟩

/-- C6 witness: last-event-wins applied to the concrete burst
KeyDown(3); KeyUp(3): the frame map resolves control 3 to the KeyUp. -/
theorem C6_last_event_wins_witness :
    frameMap ([Event.keyDown (some 3)] ++ [Event.keyUp (some 3)])
      (Control.button (ButtonControl.keyboard 3)) = some (Event.keyUp (some 3)) :=
  (C6_last_event_wins [Event.keyDown (some 3)] (Event.keyUp (some 3))
    (Control.button (ButtonControl.keyboard 3)) (by decide)).1

/-- C7: the reducer is a total function and degrades bad input without
error: an event whose scancode is absent (`KeyDown None` / `KeyUp None`)
is dropped, affecting nothing else in the frame, and an event for a
control no registered input consults leaves every LogicalInput state
exactly as if the event had not been delivered. -/
theorem C7_reducer_total_and_robust (p : InputsPipeline Nat) (es1 es2 : List Event)
    (e : Event) (c : Control) (hk : eventKey e = some c)
    (hc : ∀ kv ∈ p.inputs, c ∉ consultedControls kv.2) :
    process_events p (es1 ++ e :: es2) = process_events p (es1 ++ es2) ∧
    process_events p (es1 ++ Event.keyDown none :: es2) =
      process_events p (es1 ++ es2) ∧
    process_events p (es1 ++ Event.keyUp none :: es2) =
      process_events p (es1 ++ es2) := by
  refine ⟨?_, ?_, ?_⟩
  · refine process_events_congr p _ _ (fun kv hkv c' hc' => ?_)
    exact frameMap_middle es1 es2 e c hk c' (fun hcc => hc kv hkv (hcc ▸ hc'))
  · exact process_events_congr p _ _
      (fun kv hkv c' hc' => frameMap_dropped es1 es2 (Event.keyDown none) rfl c')
  · exact process_events_congr p _ _
      (fun kv hkv c' hc' => frameMap_dropped es1 es2 (Event.keyUp none) rfl c')

/-- C7 witness: robustness applied at a concrete pipeline — an event for
unbound keyboard control 9 does not change the outcome of the frame for
the button bound to control 5. -/
theorem C7_reducer_total_and_robust_witness :
    process_events btnP0 ([Event.keyDown (some 5)] ++ Event.keyDown (some 9) :: []) =
      process_events btnP0 ([Event.keyDown (some 5)] ++ []) :=
  (C7_reducer_total_and_robust btnP0 [Event.keyDown (some 5)] []
    (Event.keyDown (some 9)) (Control.button (ButtonControl.keyboard 9))
    (by decide) (by decide)).1

/-- C8: the claim says a gamepad-axis input tracks arriving axis-motion
events as raw / i16::MAX.  On the code the `filter_map` admits only
keyboard `KeyDown`/`KeyUp` events into the frame map, so an arriving
`ControllerAxisMotion(axis 2, 16384)` never reaches the (dead)
normalisation branch: the frame map holds nothing for the axis control,
the pipeline state is bit-for-bit unchanged, and the axis still reads 0
instead of the nonzero 16384/32767 the claim requires.  This evaluates
the code at the failing input of the claim. -/
theorem C8_gamepad_axis_event_dropped :
    frameMap [Event.controllerAxisMotion 2 16384]
      (Control.axis (AxisControl.gamepad 2)) = none ∧
    process_events gpP0 [Event.controllerAxisMotion 2 16384] = gpP0 ∧
    read (process_events gpP0 [Event.controllerAxisMotion 2 16384]) 0 =
      some (Input.axis ⟨0, [AxisControl.gamepad 2]⟩) ∧
    (16384 : Rat) / 32767 ≠ 0 := by
  have h2 : process_events gpP0 [Event.controllerAxisMotion 2 16384] = gpP0 := by
    simp [gpP0, process_events, processInput, stepAxisValue, frameMap, collectEvents,
      eventKey]
  refine ⟨rfl, h2, ?_, by norm_num⟩
  rw [h2]
  simp [gpP0, Engine.read, lookupInput, List.find?]

/-- C9: only keyboard `KeyDown`/`KeyUp` events are admitted into the
frame map, so an input all of whose bound controls are gamepad controls
never observes an event: `process_events` returns it (value and, for
buttons, `changed_this_frame`) exactly unchanged, for every state and
every incoming event sequence. -/
theorem C9_gamepad_only_inputs_unchanged (events : List Event)
    (p : InputsPipeline Nat) (k : Nat) (i : Input)
    (hg : gamepadOnly i = true) (hk : (k, i) ∈ p.inputs) :
    processInput (frameMap events) i = i ∧
    (k, i) ∈ (process_events p events).inputs := by
  have h1 := processInput_gamepadOnly events i hg
  refine ⟨h1, ?_⟩
  simp only [process_events]
  exact List.mem_map.mpr ⟨(k, i), hk, by simp [h1]⟩

/-- C9 witness: a button bound only to gamepad button 3 survives a frame
holding both a keyboard event and a (filtered-out) gamepad button event
completely unchanged. -/
theorem C9_gamepad_only_inputs_unchanged_witness :
    processInput (frameMap [Event.keyDown (some 3), Event.controllerButtonDown 3])
        (Input.button ⟨ButtonState.up, false, [ButtonControl.gamepad 3]⟩) =
      Input.button ⟨ButtonState.up, false, [ButtonControl.gamepad 3]⟩ ∧
    (0, Input.button ⟨ButtonState.up, false, [ButtonControl.gamepad 3]⟩) ∈
      (process_events gpBtnP0
        [Event.keyDown (some 3), Event.controllerButtonDown 3]).inputs :=
  C9_gamepad_only_inputs_unchanged [Event.keyDown (some 3), Event.controllerButtonDown 3]
    gpBtnP0 0 (Input.button ⟨ButtonState.up, false, [ButtonControl.gamepad 3]⟩)
    (by decide) (by decide)

/-- C10: after `process_events`, an axis input whose bound-controls list
ends in a keyboard (negative, positive) pair has value in {-1, 0, 1},
and that value is `keyAxisValue` of that LAST pair for this frame alone:
it does not depend on the previous value nor on any of the
earlier-bound controls, each iteration of the control loop overwriting
what the previous ones wrote. -/
theorem C10_last_keyboard_pair_rules (events : List Event) (v : Rat)
    (cs : List AxisControl) (neg pos : Scancode) :
    processInput (frameMap events)
        (Input.axis ⟨v, cs ++ [AxisControl.keyboard neg pos]⟩) =
      Input.axis ⟨keyAxisValue (frameMap events) neg pos,
        cs ++ [AxisControl.keyboard neg pos]⟩ ∧
    (keyAxisValue (frameMap events) neg pos = -1 ∨
     keyAxisValue (frameMap events) neg pos = 0 ∨
     keyAxisValue (frameMap events) neg pos = 1) := by
  refine ⟨?_, keyAxisValue_mem ..⟩
  simp only [processInput]
  rw [foldl_axis_last]

/-- C10 witness: the invariant applied at a concrete axis whose controls
end in the keyboard pair (4, 7), with an out-of-range previous value 5
and an earlier gamepad control that gets overwritten. -/
theorem C10_last_keyboard_pair_rules_witness :
    processInput (frameMap [Event.keyDown (some 7)])
        (Input.axis ⟨5, [AxisControl.gamepad 1] ++ [AxisControl.keyboard 4 7]⟩) =
      Input.axis ⟨keyAxisValue (frameMap [Event.keyDown (some 7)]) 4 7,
        [AxisControl.gamepad 1] ++ [AxisControl.keyboard 4 7]⟩ ∧
    (keyAxisValue (frameMap [Event.keyDown (some 7)]) 4 7 = -1 ∨
     keyAxisValue (frameMap [Event.keyDown (some 7)]) 4 7 = 0 ∨
     keyAxisValue (frameMap [Event.keyDown (some 7)]) 4 7 = 1) :=
  C10_last_keyboard_pair_rules [Event.keyDown (some 7)] 5 [AxisControl.gamepad 1] 4 7

end Engine
